import Mathlib

/-!
Shallow embedding of the business-logic core of the kitest sporting-events
app: entity types from `src/@types/module.d.ts`, JavaScript `Map` semantics
as insertion-ordered association lists, the mutation atoms from
`src/state/auth.ts`, `src/state/event.ts`, `src/state/utility.ts`, and the
derivation `canJoinEventAtom`. Non-determinism (`Date.now()`, generated
ids) is passed in as explicit parameters; a thrown `Error` is `Except.error`
carrying the message, and an operation that throws leaves the state
untouched (the atoms throw before any `set`).
-/

namespace Kitest

/-- Status of a join request, from `RequestStatus` in `module.d.ts`. -/
inductive RequestStatus where
  | PENDING
  | ACCEPTED
  | REJECTED
  | CANCELLED
  | EXPIRED
deriving DecidableEq, Repr

/-- `User` record from `module.d.ts`. -/
structure User where
  id : String
  username : String
  createdAt : Int
  passwordHash : String
deriving DecidableEq, Repr

/-- `SportingEvent` record from `module.d.ts`. -/
structure SportingEvent where
  id : String
  title : String
  sport : String
  endTime : Int
  location : String
  startTime : Int
  createdAt : Int
  maxPlayers : Nat
  description : String
  organizerId : String
deriving DecidableEq, Repr

/-- `JoinRequest` record from `module.d.ts`. -/
structure JoinRequest where
  id : String
  userId : String
  eventId : String
  createdAt : Int
  updatedAt : Int
  status : RequestStatus
deriving DecidableEq, Repr

/-- `AuthState` record from `module.d.ts`. -/
structure AuthState where
  isAuthenticated : Bool
  currentUserId : Option String
deriving DecidableEq, Repr

/-- A JavaScript `Map` with string keys: an association list in insertion
order. -/
abbrev JsMap (V : Type) := List (String × V)

/-- `map.get(k)`: the value of the first (in a well-formed map, only)
entry with key `k`. -/
def mapGet {V : Type} (m : JsMap V) (k : String) : Option V :=
  (m.find? (fun p => decide (p.1 = k))).map Prod.snd

/-- `map.set(k, v)`: replace the value in place if the key is present
(keeping its position), otherwise append the new entry at the end,
matching JavaScript `Map` insertion-order semantics. -/
def mapSet {V : Type} (m : JsMap V) (k : String) (v : V) : JsMap V :=
  if m.any (fun p => decide (p.1 = k)) then
    m.map (fun p => if p.1 = k then (k, v) else p)
  else
    m ++ [(k, v)]

/-- `map.delete(k)` (also the copy-then-delete-while-iterating pattern in
`deleteEventAtom`, which is extensionally a filter). -/
def mapDelete {V : Type} (m : JsMap V) (k : String) : JsMap V :=
  m.filter (fun p => decide (p.1 ≠ k))

/-- `Array.from(map.values())`. -/
def mapValues {V : Type} (m : JsMap V) : List V :=
  m.map Prod.snd

/-- The whole entity store: the four persisted atoms of
`src/state/atoms` (`usersAtom`, `eventsAtom`, `requestsAtom`,
`authAtom`). -/
structure AppState where
  users : JsMap User
  events : JsMap SportingEvent
  requests : JsMap JoinRequest
  auth : AuthState
deriving DecidableEq, Repr

/-- The default hydration of every collection: empty maps and the
unauthenticated `AuthState`. -/
def initialState : AppState :=
  { users := []
    events := []
    requests := []
    auth := { isAuthenticated := false, currentUserId := none } }

/-- The guard `!auth.isAuthenticated || !auth.currentUserId` found at the
top of every mutating atom, with JavaScript truthiness: it rejects a
missing id and also the falsy empty string. Returns the current user id
when the guard passes. -/
def authUser (auth : AuthState) : Option String :=
  match auth.currentUserId with
  | none => none
  | some uid => if auth.isAuthenticated = true ∧ uid ≠ "" then some uid else none

/-- Placeholder hash from `src/state/auth.ts`. -/
def hashPassword (password : String) : String :=
  "hashed_" ++ password

/-- `verifyPassword` from `src/state/auth.ts`. -/
def verifyPassword (password hash : String) : Bool :=
  decide (hashPassword password = hash)

/-- `registerUserAtom`: the duplicate-username lookup only logs, so the
operation always creates the user and auto-logs-in. `nanoid()` and
`Date.now()` are the `newId` and `now` parameters. -/
def registerUser (s : AppState) (username password newId : String) (now : Int) :
    User × AppState :=
  let newUser : User :=
    { createdAt := now, id := newId, passwordHash := hashPassword password,
      username := username }
  (newUser,
    { s with
      users := mapSet s.users newUser.id newUser
      auth := { currentUserId := some newUser.id, isAuthenticated := true } })

/-- `loginUserAtom`: aborts (returning `undefined`) only when no user has
the given username; a failed `verifyPassword` merely logs, after which the
session is still established. -/
def login (s : AppState) (username password : String) : Option User × AppState :=
  match (mapValues s.users).find? (fun u => decide (u.username = username)) with
  | none => (none, s)
  | some user =>
      (some user,
        { s with auth := { currentUserId := some user.id, isAuthenticated := true } })

/-- `logoutUserAtom`. -/
def logout (s : AppState) : AppState :=
  { s with auth := { currentUserId := none, isAuthenticated := false } }

/-- `clearAllDataAtom` from `src/state/utility.ts`. -/
def clearAllData (s : AppState) : AppState :=
  { users := []
    events := []
    requests := []
    auth := { currentUserId := none, isAuthenticated := false } }

/-- The caller-supplied part of a new event:
`Omit SportingEvent of id, organizerId, createdAt`. -/
structure EventData where
  title : String
  sport : String
  endTime : Int
  location : String
  startTime : Int
  maxPlayers : Nat
  description : String
deriving DecidableEq, Repr

/-- `createEventAtom`: only the authentication guard is checked; the event
data itself (including `endTime` versus `startTime`) is stored as
supplied. -/
def createEvent (s : AppState) (eventData : EventData) (newId : String) (now : Int) :
    Except String (SportingEvent × AppState) :=
  match authUser s.auth with
  | none => .error "User must be authenticated to create an event"
  | some uid =>
      let newEvent : SportingEvent :=
        { id := newId, title := eventData.title, sport := eventData.sport,
          endTime := eventData.endTime, location := eventData.location,
          startTime := eventData.startTime, createdAt := now,
          maxPlayers := eventData.maxPlayers,
          description := eventData.description, organizerId := uid }
      .ok (newEvent, { s with events := mapSet s.events newEvent.id newEvent })

/-- A `Partial SportingEvent` updates object: every field optional,
including `id` and `organizerId`. -/
structure EventUpdates where
  id : Option String := none
  title : Option String := none
  sport : Option String := none
  endTime : Option Int := none
  location : Option String := none
  startTime : Option Int := none
  createdAt : Option Int := none
  maxPlayers : Option Nat := none
  description : Option String := none
  organizerId : Option String := none
deriving DecidableEq, Repr

/-- The object spread `{ ...event, ...updates }`: each supplied field
overrides the stored one. -/
def mergeEvent (event : SportingEvent) (u : EventUpdates) : SportingEvent :=
  { id := u.id.getD event.id
    title := u.title.getD event.title
    sport := u.sport.getD event.sport
    endTime := u.endTime.getD event.endTime
    location := u.location.getD event.location
    startTime := u.startTime.getD event.startTime
    createdAt := u.createdAt.getD event.createdAt
    maxPlayers := u.maxPlayers.getD event.maxPlayers
    description := u.description.getD event.description
    organizerId := u.organizerId.getD event.organizerId }

/-- `updateEventAtom`: authentication, existence and organizer checks,
then a shallow merge stored back under the original key; the merged
result is not validated. -/
def updateEvent (s : AppState) (eventId : String) (updates : EventUpdates) :
    Except String (SportingEvent × AppState) :=
  match authUser s.auth with
  | none => .error "User must be authenticated"
  | some uid =>
      match mapGet s.events eventId with
      | none => .error "Event not found"
      | some event =>
          if event.organizerId ≠ uid then
            .error "Only the organizer can update the event"
          else
            let updatedEvent := mergeEvent event updates
            .ok (updatedEvent,
              { s with events := mapSet s.events eventId updatedEvent })

/-- `deleteEventAtom`: removes the event and filters out every request
whose `eventId` matches, in two separate writes. -/
def deleteEvent (s : AppState) (eventId : String) : Except String AppState :=
  match authUser s.auth with
  | none => .error "User must be authenticated"
  | some uid =>
      match mapGet s.events eventId with
      | none => .error "Event not found"
      | some event =>
          if event.organizerId ≠ uid then
            .error "Only the organizer can delete the event"
          else
            .ok { s with
                  events := mapDelete s.events eventId
                  requests :=
                    s.requests.filter (fun p => decide (p.2.eventId ≠ eventId)) }

/-- Lower-case rendering of a status, for the duplicate-request error
message (`status.toLowerCase()`). -/
def statusLower : RequestStatus → String
  | .PENDING => "pending"
  | .ACCEPTED => "accepted"
  | .REJECTED => "rejected"
  | .CANCELLED => "cancelled"
  | .EXPIRED => "expired"

/-- The accepted-count aggregation used by `createJoinRequestAtom`,
`acceptJoinRequestAtom` and `canJoinEventAtom`. -/
def acceptedCount (requests : JsMap JoinRequest) (eventId : String) : Nat :=
  ((mapValues requests).filter
    (fun req => decide (req.eventId = eventId ∧ req.status = RequestStatus.ACCEPTED))).length

/-- The existing-request predicate of `createJoinRequestAtom`: same event,
same user, status PENDING or ACCEPTED. -/
def existingActivePred (eventId uid : String) (req : JoinRequest) : Bool :=
  decide (req.eventId = eventId ∧ req.userId = uid ∧
    (req.status = RequestStatus.PENDING ∨ req.status = RequestStatus.ACCEPTED))

/-- `createJoinRequestAtom`: authentication, existence, not-started,
not-organizer, no active (PENDING or ACCEPTED) request by this user for
this event, capacity; then a new PENDING request keyed by its id. -/
def createJoinRequest (s : AppState) (eventId newId : String) (now : Int) :
    Except String (JoinRequest × AppState) :=
  match authUser s.auth with
  | none => .error "User must be authenticated to join an event"
  | some uid =>
      match mapGet s.events eventId with
      | none => .error "Event not found"
      | some event =>
          if event.startTime ≤ now then .error "Event has already started"
          else if event.organizerId = uid then
            .error "Organizer cannot join their own event"
          else
            match (mapValues s.requests).find? (existingActivePred eventId uid) with
            | some existingRequest =>
                .error ("You already have a " ++ statusLower existingRequest.status ++
                  " request")
            | none =>
                if acceptedCount s.requests eventId ≥ event.maxPlayers then
                  .error "Event is full"
                else
                  let newRequest : JoinRequest :=
                    { createdAt := now, eventId := eventId, id := newId,
                      status := .PENDING, updatedAt := now, userId := uid }
                  .ok (newRequest,
                    { s with requests := mapSet s.requests newRequest.id newRequest })

/-- `acceptJoinRequestAtom`: authentication, request and event existence,
organizer, PENDING, capacity; then the request is rewritten to ACCEPTED in
place. -/
def acceptJoinRequest (s : AppState) (requestId : String) (now : Int) :
    Except String (JoinRequest × AppState) :=
  match authUser s.auth with
  | none => .error "User must be authenticated"
  | some uid =>
      match mapGet s.requests requestId with
      | none => .error "Request not found"
      | some request =>
          match mapGet s.events request.eventId with
          | none => .error "Event not found"
          | some event =>
              if event.organizerId ≠ uid then
                .error "Only the organizer can accept requests"
              else if request.status ≠ RequestStatus.PENDING then
                .error "Request is not pending"
              else if acceptedCount s.requests request.eventId ≥ event.maxPlayers then
                .error "Event is full"
              else
                let updatedRequest := { request with status := .ACCEPTED, updatedAt := now }
                .ok (updatedRequest,
                  { s with requests := mapSet s.requests requestId updatedRequest })

/-- `rejectJoinRequestAtom`: authentication, request and event existence,
organizer, PENDING; then the request is rewritten to REJECTED in place. -/
def rejectJoinRequest (s : AppState) (requestId : String) (now : Int) :
    Except String (JoinRequest × AppState) :=
  match authUser s.auth with
  | none => .error "User must be authenticated"
  | some uid =>
      match mapGet s.requests requestId with
      | none => .error "Request not found"
      | some request =>
          match mapGet s.events request.eventId with
          | none => .error "Event not found"
          | some event =>
              if event.organizerId ≠ uid then
                .error "Only the organizer can reject requests"
              else if request.status ≠ RequestStatus.PENDING then
                .error "Request is not pending"
              else
                let updatedRequest := { request with status := .REJECTED, updatedAt := now }
                .ok (updatedRequest,
                  { s with requests := mapSet s.requests requestId updatedRequest })

/-- `cancelJoinRequestAtom`: authentication, request existence, requester,
PENDING, event existence, event not started; then the request is rewritten
to CANCELLED in place. -/
def cancelJoinRequest (s : AppState) (requestId : String) (now : Int) :
    Except String (JoinRequest × AppState) :=
  match authUser s.auth with
  | none => .error "User must be authenticated"
  | some uid =>
      match mapGet s.requests requestId with
      | none => .error "Request not found"
      | some request =>
          if request.userId ≠ uid then
            .error "You can only cancel your own requests"
          else if request.status ≠ RequestStatus.PENDING then
            .error "Can only cancel pending requests"
          else
            match mapGet s.events request.eventId with
            | none => .error "Event not found"
            | some event =>
                if event.startTime ≤ now then
                  .error "Cannot cancel request after event has started"
                else
                  let updatedRequest := { request with status := .CANCELLED, updatedAt := now }
                  .ok (updatedRequest,
                    { s with requests := mapSet s.requests requestId updatedRequest })

/-- The per-request expiry condition of `expirePendingRequestsAtom`:
status PENDING and the referenced event exists with `startTime <= now`. -/
def shouldExpire (events : JsMap SportingEvent) (now : Int) (request : JoinRequest) : Bool :=
  decide (request.status = RequestStatus.PENDING) &&
    (match mapGet events request.eventId with
     | some event => decide (event.startTime ≤ now)
     | none => false)

/-- `expirePendingRequestsAtom`: rewrites every request meeting the expiry
condition to EXPIRED in place (keys and order preserved), writes the map
back only when at least one was rewritten, and returns the count. -/
def expirePendingRequests (s : AppState) (now : Int) : Nat × AppState :=
  let updatedRequests :=
    s.requests.map (fun p =>
      if shouldExpire s.events now p.2 then
        (p.1, { p.2 with status := RequestStatus.EXPIRED, updatedAt := now })
      else p)
  let expiredCount := s.requests.countP (fun p => shouldExpire s.events now p.2)
  if expiredCount > 0 then (expiredCount, { s with requests := updatedRequests })
  else (expiredCount, s)

/-- Result type of `canJoinEventAtom`. -/
structure CanJoinResult where
  canJoin : Bool
  reason : Option String
deriving DecidableEq, Repr

/-- The capacity check shared by both fall-through paths at the end of
`canJoinEventAtom`. -/
def canJoinCapacity (requests : JsMap JoinRequest) (event : SportingEvent)
    (eventId : String) : CanJoinResult :=
  if acceptedCount requests eventId ≥ event.maxPlayers then
    { canJoin := false, reason := some "Event is full" }
  else
    { canJoin := true, reason := none }

/-- `canJoinEventAtom` from the derivation layer: existence, not-started,
not-organizer, then the FIRST request by this user for this event (found
irrespective of its status) is inspected, then capacity. -/
def canJoinEvent (s : AppState) (eventId userId : String) (now : Int) : CanJoinResult :=
  match mapGet s.events eventId with
  | none => { canJoin := false, reason := some "Event not found" }
  | some event =>
      if event.startTime ≤ now then
        { canJoin := false, reason := some "Event has already started" }
      else if event.organizerId = userId then
        { canJoin := false, reason := some "You are the organizer" }
      else
        match (mapValues s.requests).find?
            (fun req => decide (req.eventId = eventId ∧ req.userId = userId)) with
        | some userRequest =>
            if userRequest.status = RequestStatus.ACCEPTED then
              { canJoin := false, reason := some "You are already accepted" }
            else if userRequest.status = RequestStatus.PENDING then
              { canJoin := false, reason := some "You have a pending request" }
            else canJoinCapacity s.requests event eventId
        | none => canJoinCapacity s.requests event eventId

/-! ### Concrete states used to instantiate the theorems -/

/-- An authenticated session for user id "org" over an otherwise empty
store. -/
def c1s : AppState :=
  { initialState with auth := { isAuthenticated := true, currentUserId := some "org" } }

/-- Caller-supplied event data whose end time precedes its start time. -/
def c1d : EventData :=
  { title := "t", sport := "s", endTime := 0, location := "l", startTime := 10,
    maxPlayers := 2, description := "" }

/-- The event `createEvent` builds from `c1d` at time 50. -/
def c1ev : SportingEvent :=
  { id := "e1", title := "t", sport := "s", endTime := 0, location := "l",
    startTime := 10, createdAt := 50, maxPlayers := 2, description := "",
    organizerId := "org" }

/-- Well-ordered event data used to instantiate the amended C1 theorem. -/
def c1wd : EventData :=
  { title := "t", sport := "s", endTime := 200, location := "l", startTime := 100,
    maxPlayers := 2, description := "" }

/-- The event `createEvent` builds from `c1wd` at time 0. -/
def c1wev : SportingEvent :=
  { id := "e2", title := "t", sport := "s", endTime := 200, location := "l",
    startTime := 100, createdAt := 0, maxPlayers := 2, description := "",
    organizerId := "org" }

/-- The store after creating `c1wev` in `c1s`. -/
def c1ws : AppState := { c1s with events := [("e2", c1wev)] }

def c2d : EventData :=
  { title := "t", sport := "b", endTime := 200, location := "l", startTime := 100,
    maxPlayers := 2, description := "" }

/-- State after registering "bob". -/
def c2s1 : AppState := (registerUser initialState "bob" "pw" "B" 0).2

def c2ev : SportingEvent :=
  { id := "e1", title := "t", sport := "b", endTime := 200, location := "l",
    startTime := 100, createdAt := 0, maxPlayers := 2, description := "",
    organizerId := "B" }

/-- State after bob creates event "e1". -/
def c2s2 : AppState := { c2s1 with events := [("e1", c2ev)] }

/-- State after registering "alice". -/
def c2s3 : AppState := (registerUser c2s2 "alice" "pw" "A" 0).2

def c2r : JoinRequest :=
  { createdAt := 1, eventId := "e1", id := "r1", status := .PENDING,
    updatedAt := 1, userId := "A" }

/-- State after alice requests to join "e1". -/
def c2s4 : AppState := { c2s3 with requests := [("r1", c2r)] }

def c3ev : SportingEvent :=
  { id := "e1", title := "t", sport := "s", endTime := 300, location := "l",
    startTime := 100, createdAt := 0, maxPlayers := 4, description := "",
    organizerId := "org" }

/-- An already ACCEPTED (terminal for accept/reject/cancel) request. -/
def c3r : JoinRequest :=
  { id := "r1", userId := "bob", eventId := "e1", createdAt := 0, updatedAt := 1,
    status := .ACCEPTED }

def c3s : AppState :=
  { initialState with
    auth := { isAuthenticated := true, currentUserId := some "org" }
    events := [("e1", c3ev)]
    requests := [("r1", c3r)] }

/-- A stored user whose password hash does not match the one the C4
witness supplies. -/
def c4user : User :=
  { id := "U", username := "alice", createdAt := 0, passwordHash := "hashed_secret" }

def c4s : AppState := { initialState with users := [("U", c4user)] }

def c5ev : SportingEvent :=
  { id := "e1", title := "t", sport := "s", endTime := 300, location := "l",
    startTime := 100, createdAt := 0, maxPlayers := 2, description := "",
    organizerId := "org" }

/-- An older, REJECTED request of bob for "e1" (first in insertion
order). -/
def c5rej : JoinRequest :=
  { id := "r1", userId := "bob", eventId := "e1", createdAt := 0, updatedAt := 1,
    status := .REJECTED }

/-- A later PENDING request of bob for the same event. -/
def c5pen : JoinRequest :=
  { id := "r2", userId := "bob", eventId := "e1", createdAt := 2, updatedAt := 2,
    status := .PENDING }

def c5s : AppState :=
  { initialState with
    events := [("e1", c5ev)]
    requests := [("r1", c5rej), ("r2", c5pen)] }

/-- A one-slot event organized by "O". -/
def c6ev : SportingEvent :=
  { id := "e1", title := "t", sport := "s", endTime := 300, location := "l",
    startTime := 100, createdAt := 0, maxPlayers := 1, description := "",
    organizerId := "O" }

def c6acc : JoinRequest :=
  { id := "ra", userId := "X", eventId := "e1", createdAt := 0, updatedAt := 1,
    status := .ACCEPTED }

def c6pen : JoinRequest :=
  { id := "rb", userId := "Y", eventId := "e1", createdAt := 2, updatedAt := 2,
    status := .PENDING }

def c6s : AppState :=
  { initialState with
    auth := { isAuthenticated := true, currentUserId := some "O" }
    events := [("e1", c6ev)]
    requests := [("ra", c6acc), ("rb", c6pen)] }

def c7ev1 : SportingEvent :=
  { id := "e1", title := "t", sport := "s", endTime := 300, location := "l",
    startTime := 100, createdAt := 0, maxPlayers := 4, description := "",
    organizerId := "O" }

def c7ev2 : SportingEvent :=
  { id := "e2", title := "u", sport := "s", endTime := 400, location := "l",
    startTime := 200, createdAt := 0, maxPlayers := 4, description := "",
    organizerId := "O" }

def c7r1 : JoinRequest :=
  { id := "r1", userId := "bob", eventId := "e1", createdAt := 0, updatedAt := 0,
    status := .PENDING }

def c7r2 : JoinRequest :=
  { id := "r2", userId := "bob", eventId := "e2", createdAt := 0, updatedAt := 0,
    status := .PENDING }

def c7s : AppState :=
  { initialState with
    auth := { isAuthenticated := true, currentUserId := some "O" }
    events := [("e1", c7ev1), ("e2", c7ev2)]
    requests := [("r1", c7r1), ("r2", c7r2)] }

/-- The store after "e1" is deleted from `c7s`. -/
def c7sd : AppState :=
  { c7s with events := [("e2", c7ev2)], requests := [("r2", c7r2)] }

/-- An event that has started by time 5. -/
def c8e1 : SportingEvent :=
  { id := "e1", title := "t", sport := "s", endTime := 300, location := "l",
    startTime := 0, createdAt := 0, maxPlayers := 4, description := "",
    organizerId := "O" }

def c8r1 : JoinRequest :=
  { id := "r1", userId := "bob", eventId := "e1", createdAt := 0, updatedAt := 0,
    status := .PENDING }

def c8r2 : JoinRequest :=
  { id := "r2", userId := "carol", eventId := "e1", createdAt := 0, updatedAt := 0,
    status := .ACCEPTED }

def c8s : AppState :=
  { initialState with
    events := [("e1", c8e1)]
    requests := [("r1", c8r1), ("r2", c8r2)] }

def c10ev : SportingEvent :=
  { id := "e1", title := "t", sport := "s", endTime := 200, location := "l",
    startTime := 100, createdAt := 0, maxPlayers := 4, description := "",
    organizerId := "O" }

def c10s : AppState :=
  { initialState with
    auth := { isAuthenticated := true, currentUserId := some "O" }
    events := [("e1", c10ev)] }

/-- Updates that overwrite the organizer and make the end time precede
the start time. -/
def c10u : EventUpdates := { organizerId := some "X", endTime := some 0 }

/-- An entry of the requests map is an active (PENDING or ACCEPTED)
request of user `u` for event `e`. -/
def activeFor (u e : String) (p : String × JoinRequest) : Bool :=
  decide (p.2.userId = u ∧ p.2.eventId = e ∧
    (p.2.status = RequestStatus.PENDING ∨ p.2.status = RequestStatus.ACCEPTED))

/-- Well-formedness of the requests map carried through the reachability
induction: keys are distinct, and each (user, event) pair has at most one
active request. -/
def GoodRequests (s : AppState) : Prop :=
  (s.requests.map Prod.fst).Nodup ∧
    ∀ u e, s.requests.countP (activeFor u e) ≤ 1

/-- States reachable from the empty initial store by the mutation
operations (failed operations do not change the state, so only
successful steps appear). -/
inductive Reachable : AppState → Prop where
  | init : Reachable initialState
  | step_register (s : AppState) (username password newId : String) (now : Int) :
      Reachable s → Reachable (registerUser s username password newId now).2
  | step_login (s : AppState) (username password : String) :
      Reachable s → Reachable (login s username password).2
  | step_logout (s : AppState) : Reachable s → Reachable (logout s)
  | step_clearAll (s : AppState) : Reachable s → Reachable (clearAllData s)
  | step_createEvent (s s' : AppState) (d : EventData) (newId : String) (now : Int)
      (ev : SportingEvent) :
      Reachable s → createEvent s d newId now = .ok (ev, s') → Reachable s'
  | step_updateEvent (s s' : AppState) (eventId : String) (u : EventUpdates)
      (ev : SportingEvent) :
      Reachable s → updateEvent s eventId u = .ok (ev, s') → Reachable s'
  | step_deleteEvent (s s' : AppState) (eventId : String) :
      Reachable s → deleteEvent s eventId = .ok s' → Reachable s'
  | step_createJoinRequest (s s' : AppState) (eventId newId : String) (now : Int)
      (r : JoinRequest) :
      Reachable s → createJoinRequest s eventId newId now = .ok (r, s') → Reachable s'
  | step_acceptJoinRequest (s s' : AppState) (requestId : String) (now : Int)
      (r : JoinRequest) :
      Reachable s → acceptJoinRequest s requestId now = .ok (r, s') → Reachable s'
  | step_rejectJoinRequest (s s' : AppState) (requestId : String) (now : Int)
      (r : JoinRequest) :
      Reachable s → rejectJoinRequest s requestId now = .ok (r, s') → Reachable s'
  | step_cancelJoinRequest (s s' : AppState) (requestId : String) (now : Int)
      (r : JoinRequest) :
      Reachable s → cancelJoinRequest s requestId now = .ok (r, s') → Reachable s'
  | step_expire (s : AppState) (now : Int) :
      Reachable s → Reachable (expirePendingRequests s now).2

/-! ### Map-level lemmas -/

theorem bool_eq_false {b : Bool} (h : ¬ b = true) : b = false := by
  cases b
  · rfl
  · exact absurd rfl h

theorem any_key_of_mapGet {V : Type} {m : JsMap V} {k : String} {v : V}
    (h : mapGet m k = some v) : m.any (fun p => decide (p.1 = k)) = true := by
  unfold mapGet at h
  rcases Option.map_eq_some'.1 h with ⟨p, hfind, hsnd⟩
  have h1 := List.find?_some hfind
  rw [List.any_eq_true]
  exact ⟨p, List.mem_of_find?_eq_some hfind, h1⟩

theorem find?_key_map_replace {V : Type} (m : JsMap V) (k : String) (v : V) :
    (m.map (fun p => if p.1 = k then (k, v) else p)).find? (fun p => decide (p.1 = k)) =
      if m.any (fun p => decide (p.1 = k)) then some (k, v) else none := by
  induction m with
  | nil => rfl
  | cons a t ih =>
      by_cases h : a.1 = k
      · simp [h]
      · have hd : decide (a.1 = k) = false := by simp [h]
        rw [List.map_cons, if_neg h, List.find?_cons_of_neg _ (by simpa using h), ih,
          List.any_cons, hd, Bool.false_or]

theorem mapGet_mapSet_self {V : Type} (m : JsMap V) (k : String) (v : V) :
    mapGet (mapSet m k v) k = some v := by
  unfold mapSet mapGet
  by_cases h : m.any (fun p => decide (p.1 = k)) = true
  · rw [if_pos h, find?_key_map_replace, if_pos h]
    rfl
  · rw [if_neg h, List.find?_append]
    have h0 : m.find? (fun p => decide (p.1 = k)) = none := by
      rw [List.find?_eq_none]
      intro x hx
      have hall := List.any_eq_false.1 (bool_eq_false h) x hx
      simpa using hall
    simp [h0]

theorem mapGet_mapSet_ne {V : Type} (m : JsMap V) (k k' : String) (v : V)
    (hne : k' ≠ k) : mapGet (mapSet m k v) k' = mapGet m k' := by
  have hkk' : ¬ (k = k') := fun hh => hne hh.symm
  unfold mapSet mapGet
  by_cases h : m.any (fun p => decide (p.1 = k)) = true
  · rw [if_pos h, List.find?_map]
    have hcomp :
        ((fun p : String × V => decide (p.1 = k')) ∘
          (fun p : String × V => if p.1 = k then (k, v) else p)) =
        fun p : String × V => decide (p.1 = k') := by
      funext p
      by_cases hp : p.1 = k
      · simp [hp, hkk']
      · simp [hp]
    rw [hcomp]
    cases hfind : m.find? (fun p : String × V => decide (p.1 = k')) with
    | none => rfl
    | some a =>
        have ha : a.1 = k' := by simpa using List.find?_some hfind
        have haa : (if a.1 = k then (k, v) else a) = a := by
          rw [if_neg]
          rw [ha]
          exact hne
        simp [haa]
  · rw [if_neg h, List.find?_append]
    have h1 : List.find? (fun p : String × V => decide (p.1 = k')) [(k, v)] = none := by
      simp [hkk']
    rw [h1, Option.or_none]

theorem find?_filter_key_none {V : Type} (m : JsMap V) (q : String × V → Bool)
    (k : String) (hq : ∀ p, p.1 = k → q p = false) :
    (m.filter q).find? (fun p => decide (p.1 = k)) = none := by
  induction m with
  | nil => rfl
  | cons a t ih =>
      rw [List.filter_cons]
      by_cases hqa : q a = true
      · rw [if_pos hqa]
        have hak : ¬ a.1 = k := by
          intro hh
          rw [hq a hh] at hqa
          exact Bool.false_ne_true hqa
        rw [List.find?_cons_of_neg _ (by simpa using hak)]
        exact ih
      · rw [if_neg hqa]
        exact ih

theorem find?_filter_key_eq {V : Type} (m : JsMap V) (q : String × V → Bool)
    (k' : String) (hq : ∀ p, p.1 = k' → q p = true) :
    (m.filter q).find? (fun p => decide (p.1 = k')) =
      m.find? (fun p => decide (p.1 = k')) := by
  induction m with
  | nil => rfl
  | cons a t ih =>
      rw [List.filter_cons]
      by_cases hak : a.1 = k'
      · rw [if_pos (hq a hak), List.find?_cons_of_pos _ (by simpa using hak),
          List.find?_cons_of_pos _ (by simpa using hak)]
      · by_cases hqa : q a = true
        · rw [if_pos hqa, List.find?_cons_of_neg _ (by simpa using hak),
            List.find?_cons_of_neg _ (by simpa using hak)]
          exact ih
        · rw [if_neg hqa, List.find?_cons_of_neg _ (by simpa using hak)]
          exact ih

theorem mapGet_mapDelete_self {V : Type} (m : JsMap V) (k : String) :
    mapGet (mapDelete m k) k = none := by
  unfold mapDelete mapGet
  rw [find?_filter_key_none]
  · rfl
  · intro p hp
    simp [hp]

theorem mapGet_mapDelete_ne {V : Type} (m : JsMap V) (k k' : String)
    (hne : k' ≠ k) : mapGet (mapDelete m k) k' = mapGet m k' := by
  unfold mapDelete mapGet
  rw [find?_filter_key_eq]
  intro p hp
  simp [hp, hne]

theorem mem_mapSet {V : Type} {m : JsMap V} {k : String} {v : V} {p : String × V}
    (h : p ∈ mapSet m k v) : p = (k, v) ∨ p ∈ m := by
  unfold mapSet at h
  by_cases hb : m.any (fun p => decide (p.1 = k)) = true
  · rw [if_pos hb] at h
    rcases List.mem_map.1 h with ⟨q, hq, hfq⟩
    by_cases hqk : q.1 = k
    · left
      rw [← hfq, if_pos hqk]
    · right
      rw [← hfq, if_neg hqk]
      exact hq
  · rw [if_neg hb] at h
    rcases List.mem_append.1 h with h | h
    · exact Or.inr h
    · left
      simpa using h

theorem keys_map_of_fst_eq {V : Type} (m : JsMap V) (f : String × V → String × V)
    (hf : ∀ p ∈ m, (f p).1 = p.1) :
    (m.map f).map Prod.fst = m.map Prod.fst := by
  rw [List.map_map]
  exact List.map_congr_left hf

theorem keysNodup_mapSet {V : Type} {m : JsMap V} (k : String) (v : V)
    (hn : (m.map Prod.fst).Nodup) : ((mapSet m k v).map Prod.fst).Nodup := by
  unfold mapSet
  by_cases hb : m.any (fun p => decide (p.1 = k)) = true
  · rw [if_pos hb, keys_map_of_fst_eq]
    · exact hn
    · intro p hp
      by_cases hpk : p.1 = k
      · rw [if_pos hpk, hpk]
      · rw [if_neg hpk]
  · rw [if_neg hb, List.map_append]
    rw [List.nodup_append]
    refine ⟨hn, List.nodup_singleton k, ?_⟩
    intro a ha hb'
    have hak : a = k := by simpa using hb'
    rcases List.mem_map.1 ha with ⟨q, hq, hfa⟩
    have hq0 := List.any_eq_false.1 (bool_eq_false hb) q hq
    apply hq0
    simp [hfa, hak]

theorem entry_eq_of_mapGet {V : Type} {m : JsMap V} {k : String} {v : V}
    (hn : (m.map Prod.fst).Nodup) (hget : mapGet m k = some v) :
    ∀ p ∈ m, p.1 = k → p = (k, v) := by
  induction m with
  | nil => intro p hp; cases hp
  | cons a t ih =>
      intro p hp hpk
      rw [List.map_cons, List.nodup_cons] at hn
      rcases List.mem_cons.1 hp with rfl | hpt
      · unfold mapGet at hget
        rw [List.find?_cons_of_pos _ (by simpa using hpk)] at hget
        have hsnd : p.2 = v := by simpa using hget
        have hpp : p = (p.1, p.2) := rfl
        rw [hpp, hpk, hsnd]
      · by_cases hak : a.1 = k
        · exfalso
          apply hn.1
          have hmem : p.1 ∈ List.map Prod.fst t := List.mem_map_of_mem Prod.fst hpt
          rwa [hpk, ← hak] at hmem
        · unfold mapGet at hget
          rw [List.find?_cons_of_neg _ (by simpa using hak)] at hget
          exact ih hn.2 hget p hpt hpk

theorem countP_key_le_one {V : Type} {m : JsMap V} (k : String)
    (hn : (m.map Prod.fst).Nodup) :
    m.countP (fun p => decide (p.1 = k)) ≤ 1 := by
  induction m with
  | nil => simp
  | cons a t ih =>
      rw [List.map_cons, List.nodup_cons] at hn
      rw [List.countP_cons]
      by_cases hak : a.1 = k
      · have h0 : t.countP (fun p => decide (p.1 = k)) = 0 := by
          rw [List.countP_eq_zero]
          intro q hq
          simp only [decide_eq_true_eq]
          intro hqk
          apply hn.1
          have hmem : q.1 ∈ List.map Prod.fst t := List.mem_map_of_mem Prod.fst hq
          rwa [hqk, ← hak] at hmem
        simp [hak, h0]
      · have hd : decide (a.1 = k) = false := by simp [hak]
        rw [hd]
        simpa using ih hn.2

/-! ### Success-case inversion of the mutation operations -/

theorem createEvent_ok {s s' : AppState} {d : EventData} {nid : String} {now : Int}
    {ev : SportingEvent} (h : createEvent s d nid now = .ok (ev, s')) :
    ∃ uid, authUser s.auth = some uid ∧
      ev = { id := nid, title := d.title, sport := d.sport, endTime := d.endTime,
             location := d.location, startTime := d.startTime, createdAt := now,
             maxPlayers := d.maxPlayers, description := d.description,
             organizerId := uid } ∧
      s' = { s with events := mapSet s.events nid ev } := by
  unfold createEvent at h
  cases hau : authUser s.auth with
  | none => rw [hau] at h; cases h
  | some uid =>
      rw [hau] at h
      simp only [Except.ok.injEq, Prod.mk.injEq] at h
      exact ⟨uid, rfl, h.1.symm, by rw [← h.2, h.1]⟩

theorem updateEvent_ok {s s' : AppState} {eid : String} {u : EventUpdates}
    {ev : SportingEvent} (h : updateEvent s eid u = .ok (ev, s')) :
    ∃ uid event, authUser s.auth = some uid ∧
      mapGet s.events eid = some event ∧
      event.organizerId = uid ∧
      ev = mergeEvent event u ∧
      s' = { s with events := mapSet s.events eid ev } := by
  unfold updateEvent at h
  cases hau : authUser s.auth with
  | none => rw [hau] at h; cases h
  | some uid =>
      rw [hau] at h
      dsimp only at h
      cases hev : mapGet s.events eid with
      | none => rw [hev] at h; cases h
      | some event =>
          rw [hev] at h
          dsimp only at h
          by_cases horg : event.organizerId ≠ uid
          · rw [if_pos horg] at h; cases h
          · rw [if_neg horg] at h
            simp only [Except.ok.injEq, Prod.mk.injEq] at h
            exact ⟨uid, event, rfl, rfl, not_not.1 horg, h.1.symm, by rw [← h.2, h.1]⟩

theorem deleteEvent_ok {s s' : AppState} {eid : String}
    (h : deleteEvent s eid = .ok s') :
    ∃ uid event, authUser s.auth = some uid ∧
      mapGet s.events eid = some event ∧
      event.organizerId = uid ∧
      s' = { s with
             events := mapDelete s.events eid
             requests := s.requests.filter (fun p => decide (p.2.eventId ≠ eid)) } := by
  unfold deleteEvent at h
  cases hau : authUser s.auth with
  | none => rw [hau] at h; cases h
  | some uid =>
      rw [hau] at h
      dsimp only at h
      cases hev : mapGet s.events eid with
      | none => rw [hev] at h; cases h
      | some event =>
          rw [hev] at h
          dsimp only at h
          by_cases horg : event.organizerId ≠ uid
          · rw [if_pos horg] at h; cases h
          · rw [if_neg horg] at h
            simp only [Except.ok.injEq] at h
            exact ⟨uid, event, rfl, rfl, not_not.1 horg, h.symm⟩

theorem createJoinRequest_ok {s s' : AppState} {eid nid : String} {now : Int}
    {r : JoinRequest} (h : createJoinRequest s eid nid now = .ok (r, s')) :
    ∃ uid event, authUser s.auth = some uid ∧
      mapGet s.events eid = some event ∧
      ¬ event.startTime ≤ now ∧
      event.organizerId ≠ uid ∧
      (mapValues s.requests).find? (existingActivePred eid uid) = none ∧
      ¬ acceptedCount s.requests eid ≥ event.maxPlayers ∧
      r = { createdAt := now, eventId := eid, id := nid,
            status := .PENDING, updatedAt := now, userId := uid } ∧
      s' = { s with requests := mapSet s.requests nid r } := by
  unfold createJoinRequest at h
  cases hau : authUser s.auth with
  | none => rw [hau] at h; cases h
  | some uid =>
      rw [hau] at h
      dsimp only at h
      cases hev : mapGet s.events eid with
      | none => rw [hev] at h; cases h
      | some event =>
          rw [hev] at h
          dsimp only at h
          by_cases hst : event.startTime ≤ now
          · rw [if_pos hst] at h; cases h
          · rw [if_neg hst] at h
            by_cases horg : event.organizerId = uid
            · rw [if_pos horg] at h; cases h
            · rw [if_neg horg] at h
              cases hfind : (mapValues s.requests).find? (existingActivePred eid uid) with
              | some ex => rw [hfind] at h; cases h
              | none =>
                  rw [hfind] at h
                  dsimp only at h
                  by_cases hfull : acceptedCount s.requests eid ≥ event.maxPlayers
                  · rw [if_pos hfull] at h; cases h
                  · rw [if_neg hfull] at h
                    simp only [Except.ok.injEq, Prod.mk.injEq] at h
                    exact ⟨uid, event, rfl, rfl, hst, horg, hfind, hfull, h.1.symm,
                      by rw [← h.2, h.1]⟩

theorem acceptJoinRequest_ok {s s' : AppState} {rid : String} {now : Int}
    {r : JoinRequest} (h : acceptJoinRequest s rid now = .ok (r, s')) :
    ∃ uid request event, authUser s.auth = some uid ∧
      mapGet s.requests rid = some request ∧
      mapGet s.events request.eventId = some event ∧
      event.organizerId = uid ∧
      request.status = RequestStatus.PENDING ∧
      ¬ acceptedCount s.requests request.eventId ≥ event.maxPlayers ∧
      r = { request with status := .ACCEPTED, updatedAt := now } ∧
      s' = { s with requests := mapSet s.requests rid r } := by
  unfold acceptJoinRequest at h
  cases hau : authUser s.auth with
  | none => rw [hau] at h; cases h
  | some uid =>
      rw [hau] at h
      dsimp only at h
      cases hrq : mapGet s.requests rid with
      | none => rw [hrq] at h; cases h
      | some request =>
          rw [hrq] at h
          dsimp only at h
          cases hev : mapGet s.events request.eventId with
          | none => rw [hev] at h; cases h
          | some event =>
              rw [hev] at h
              dsimp only at h
              by_cases horg : event.organizerId ≠ uid
              · rw [if_pos horg] at h; cases h
              · rw [if_neg horg] at h
                by_cases hp : request.status ≠ RequestStatus.PENDING
                · rw [if_pos hp] at h; cases h
                · rw [if_neg hp] at h
                  by_cases hfull :
                      acceptedCount s.requests request.eventId ≥ event.maxPlayers
                  · rw [if_pos hfull] at h; cases h
                  · rw [if_neg hfull] at h
                    simp only [Except.ok.injEq, Prod.mk.injEq] at h
                    exact ⟨uid, request, event, rfl, rfl, hev, not_not.1 horg,
                      not_not.1 hp, hfull, h.1.symm, by rw [← h.2, h.1]⟩

theorem rejectJoinRequest_ok {s s' : AppState} {rid : String} {now : Int}
    {r : JoinRequest} (h : rejectJoinRequest s rid now = .ok (r, s')) :
    ∃ uid request event, authUser s.auth = some uid ∧
      mapGet s.requests rid = some request ∧
      mapGet s.events request.eventId = some event ∧
      event.organizerId = uid ∧
      request.status = RequestStatus.PENDING ∧
      r = { request with status := .REJECTED, updatedAt := now } ∧
      s' = { s with requests := mapSet s.requests rid r } := by
  unfold rejectJoinRequest at h
  cases hau : authUser s.auth with
  | none => rw [hau] at h; cases h
  | some uid =>
      rw [hau] at h
      dsimp only at h
      cases hrq : mapGet s.requests rid with
      | none => rw [hrq] at h; cases h
      | some request =>
          rw [hrq] at h
          dsimp only at h
          cases hev : mapGet s.events request.eventId with
          | none => rw [hev] at h; cases h
          | some event =>
              rw [hev] at h
              dsimp only at h
              by_cases horg : event.organizerId ≠ uid
              · rw [if_pos horg] at h; cases h
              · rw [if_neg horg] at h
                by_cases hp : request.status ≠ RequestStatus.PENDING
                · rw [if_pos hp] at h; cases h
                · rw [if_neg hp] at h
                  simp only [Except.ok.injEq, Prod.mk.injEq] at h
                  exact ⟨uid, request, event, rfl, rfl, hev, not_not.1 horg,
                    not_not.1 hp, h.1.symm, by rw [← h.2, h.1]⟩

theorem cancelJoinRequest_ok {s s' : AppState} {rid : String} {now : Int}
    {r : JoinRequest} (h : cancelJoinRequest s rid now = .ok (r, s')) :
    ∃ uid request event, authUser s.auth = some uid ∧
      mapGet s.requests rid = some request ∧
      request.userId = uid ∧
      request.status = RequestStatus.PENDING ∧
      mapGet s.events request.eventId = some event ∧
      ¬ event.startTime ≤ now ∧
      r = { request with status := .CANCELLED, updatedAt := now } ∧
      s' = { s with requests := mapSet s.requests rid r } := by
  unfold cancelJoinRequest at h
  cases hau : authUser s.auth with
  | none => rw [hau] at h; cases h
  | some uid =>
      rw [hau] at h
      dsimp only at h
      cases hrq : mapGet s.requests rid with
      | none => rw [hrq] at h; cases h
      | some request =>
          rw [hrq] at h
          dsimp only at h
          by_cases hu : request.userId ≠ uid
          · rw [if_pos hu] at h; cases h
          · rw [if_neg hu] at h
            by_cases hp : request.status ≠ RequestStatus.PENDING
            · rw [if_pos hp] at h; cases h
            · rw [if_neg hp] at h
              cases hev : mapGet s.events request.eventId with
              | none => rw [hev] at h; cases h
              | some event =>
                  rw [hev] at h
                  dsimp only at h
                  by_cases hst : event.startTime ≤ now
                  · rw [if_pos hst] at h; cases h
                  · rw [if_neg hst] at h
                    simp only [Except.ok.injEq, Prod.mk.injEq] at h
                    exact ⟨uid, request, event, rfl, rfl, not_not.1 hu,
                      not_not.1 hp, hev, hst, h.1.symm, by rw [← h.2, h.1]⟩

/-! ### The at-most-one-active-request-per-pair invariant -/

theorem goodRequests_of_requests_eq {s s' : AppState}
    (h : s'.requests = s.requests) (hg : GoodRequests s) : GoodRequests s' := by
  unfold GoodRequests at *
  rw [h]
  exact hg

theorem activeFor_false_of_status {u e k : String} {r : JoinRequest}
    (h1 : r.status ≠ RequestStatus.PENDING) (h2 : r.status ≠ RequestStatus.ACCEPTED) :
    activeFor u e (k, r) = false := by
  unfold activeFor
  simp only [decide_eq_false_iff_not]
  rintro ⟨-, -, hs | hs⟩
  · exact h1 hs
  · exact h2 hs

theorem countP_activeFor_mapSet_inactive {m : JsMap JoinRequest} {k : String}
    {v : JoinRequest} (u e : String) (hv : activeFor u e (k, v) = false)
    (hb : m.countP (activeFor u e) ≤ 1) :
    (mapSet m k v).countP (activeFor u e) ≤ 1 := by
  unfold mapSet
  by_cases hany : m.any (fun p => decide (p.1 = k)) = true
  · rw [if_pos hany, List.countP_map]
    refine le_trans (List.countP_mono_left ?_) hb
    intro p hp hpf
    by_cases hpk : p.1 = k
    · exfalso
      simp only [Function.comp, if_pos hpk, hv] at hpf
      exact Bool.false_ne_true hpf
    · simpa [Function.comp, if_neg hpk] using hpf
  · rw [if_neg hany, List.countP_append]
    have h0 : List.countP (activeFor u e) [(k, v)] = 0 := by
      simp [List.countP_cons, hv]
    rw [h0]
    simpa using hb

theorem countP_activeFor_mapSet_replace {m : JsMap JoinRequest} {k : String}
    {request v : JoinRequest} (u e : String)
    (hn : (m.map Prod.fst).Nodup)
    (hget : mapGet m k = some request)
    (himp : activeFor u e (k, v) = true → activeFor u e (k, request) = true)
    (hb : m.countP (activeFor u e) ≤ 1) :
    (mapSet m k v).countP (activeFor u e) ≤ 1 := by
  unfold mapSet
  rw [if_pos (any_key_of_mapGet hget), List.countP_map]
  refine le_trans (List.countP_mono_left ?_) hb
  intro p hp hpf
  by_cases hpk : p.1 = k
  · have hpkv : p = (k, request) := entry_eq_of_mapGet hn hget p hp hpk
    rw [hpkv]
    apply himp
    simpa [Function.comp, if_pos hpk] using hpf
  · simpa [Function.comp, if_neg hpk] using hpf

theorem countP_activeFor_mapSet_fresh {m : JsMap JoinRequest} {k : String}
    {v : JoinRequest} (u e : String)
    (hn : (m.map Prod.fst).Nodup)
    (hall : ∀ p ∈ m, activeFor u e p = false) :
    (mapSet m k v).countP (activeFor u e) ≤ 1 := by
  unfold mapSet
  by_cases hany : m.any (fun p => decide (p.1 = k)) = true
  · rw [if_pos hany, List.countP_map]
    refine le_trans (List.countP_mono_left (q := fun p => decide (p.1 = k)) ?_)
      (countP_key_le_one k hn)
    intro p hp hpf
    by_cases hpk : p.1 = k
    · simp [hpk]
    · exfalso
      have hpt : activeFor u e p = true := by
        simpa [Function.comp, if_neg hpk] using hpf
      rw [hall p hp] at hpt
      exact Bool.false_ne_true hpt
  · rw [if_neg hany, List.countP_append]
    have h0 : m.countP (activeFor u e) = 0 := by
      rw [List.countP_eq_zero]
      intro a ha
      simp [hall a ha]
    rw [h0]
    simpa using List.countP_le_length (p := activeFor u e) (l := [(k, v)])

theorem login_requests_eq (s : AppState) (username password : String) :
    (login s username password).2.requests = s.requests := by
  unfold login
  cases (mapValues s.users).find? (fun u => decide (u.username = username)) <;> rfl

theorem expire_requests_shape (s : AppState) (now : Int) :
    (expirePendingRequests s now).2.requests = s.requests ∨
      (expirePendingRequests s now).2.requests =
        s.requests.map (fun p =>
          if shouldExpire s.events now p.2 then
            (p.1, { p.2 with status := RequestStatus.EXPIRED, updatedAt := now })
          else p) := by
  unfold expirePendingRequests
  by_cases hc : s.requests.countP (fun p => shouldExpire s.events now p.2) > 0
  · rw [if_pos hc]
    exact Or.inr rfl
  · rw [if_neg hc]
    exact Or.inl rfl

theorem goodRequests_expire {s : AppState} (now : Int) (hg : GoodRequests s) :
    GoodRequests (expirePendingRequests s now).2 := by
  rcases expire_requests_shape s now with h | h
  · exact goodRequests_of_requests_eq h hg
  · constructor
    · rw [h, keys_map_of_fst_eq]
      · exact hg.1
      · intro p hp
        by_cases hc : shouldExpire s.events now p.2 = true
        · rw [if_pos hc]
        · rw [if_neg hc]
    · intro u e
      rw [h, List.countP_map]
      refine le_trans (List.countP_mono_left ?_) (hg.2 u e)
      intro p hp hpf
      by_cases hc : shouldExpire s.events now p.2 = true
      · exfalso
        have hfalse : activeFor u e
            (p.1, { p.2 with status := RequestStatus.EXPIRED, updatedAt := now }) = false :=
          activeFor_false_of_status (by intro hh; cases hh) (by intro hh; cases hh)
        simp only [Function.comp, if_pos hc, hfalse] at hpf
        exact Bool.false_ne_true hpf
      · simpa [Function.comp, if_neg hc] using hpf

theorem goodRequests_deleteEvent {s s' : AppState} {eid : String}
    (h : deleteEvent s eid = .ok s') (hg : GoodRequests s) : GoodRequests s' := by
  rcases deleteEvent_ok h with ⟨uid, event, -, -, -, hs'⟩
  rw [hs']
  constructor
  · exact ((List.filter_sublist s.requests).map Prod.fst).nodup hg.1
  · intro u e
    exact le_trans ((List.filter_sublist s.requests).countP_le _) (hg.2 u e)

theorem goodRequests_createJoinRequest {s s' : AppState} {eid nid : String}
    {now : Int} {r : JoinRequest}
    (h : createJoinRequest s eid nid now = .ok (r, s')) (hg : GoodRequests s) :
    GoodRequests s' := by
  rcases createJoinRequest_ok h with ⟨uid, event, -, -, -, -, hfind, -, hr, hs'⟩
  have hall : ∀ p ∈ s.requests, activeFor uid eid p = false := by
    intro p hp
    have hnot := List.find?_eq_none.1 hfind p.2 (List.mem_map_of_mem Prod.snd hp)
    unfold existingActivePred at hnot
    rw [decide_eq_true_eq] at hnot
    unfold activeFor
    simp only [decide_eq_false_iff_not]
    rintro ⟨h1, h2, h3⟩
    exact hnot ⟨h2, h1, h3⟩
  rw [hs']
  constructor
  · exact keysNodup_mapSet nid r hg.1
  · intro u e
    by_cases hue : u = uid ∧ e = eid
    · rw [hue.1, hue.2]
      exact countP_activeFor_mapSet_fresh uid eid hg.1 hall
    · refine countP_activeFor_mapSet_inactive u e ?_ (hg.2 u e)
      unfold activeFor
      simp only [decide_eq_false_iff_not]
      rintro ⟨h1, h2, -⟩
      apply hue
      constructor
      · rw [← h1, hr]
      · rw [← h2, hr]

theorem goodRequests_acceptJoinRequest {s s' : AppState} {rid : String}
    {now : Int} {r : JoinRequest}
    (h : acceptJoinRequest s rid now = .ok (r, s')) (hg : GoodRequests s) :
    GoodRequests s' := by
  rcases acceptJoinRequest_ok h with ⟨uid, request, event, -, hrq, -, -, hpend, -, hr, hs'⟩
  rw [hs']
  constructor
  · exact keysNodup_mapSet rid r hg.1
  · intro u e
    refine countP_activeFor_mapSet_replace u e hg.1 hrq ?_ (hg.2 u e)
    unfold activeFor
    simp only [decide_eq_true_eq]
    rintro ⟨h1, h2, -⟩
    rw [hr] at h1 h2
    exact ⟨h1, h2, Or.inl hpend⟩

theorem goodRequests_rejectJoinRequest {s s' : AppState} {rid : String}
    {now : Int} {r : JoinRequest}
    (h : rejectJoinRequest s rid now = .ok (r, s')) (hg : GoodRequests s) :
    GoodRequests s' := by
  rcases rejectJoinRequest_ok h with ⟨uid, request, event, -, -, -, -, -, hr, hs'⟩
  rw [hs']
  constructor
  · exact keysNodup_mapSet rid r hg.1
  · intro u e
    refine countP_activeFor_mapSet_inactive u e ?_ (hg.2 u e)
    rw [hr]
    exact activeFor_false_of_status (by intro hh; cases hh) (by intro hh; cases hh)

theorem goodRequests_cancelJoinRequest {s s' : AppState} {rid : String}
    {now : Int} {r : JoinRequest}
    (h : cancelJoinRequest s rid now = .ok (r, s')) (hg : GoodRequests s) :
    GoodRequests s' := by
  rcases cancelJoinRequest_ok h with ⟨uid, request, event, -, -, -, -, -, -, hr, hs'⟩
  rw [hs']
  constructor
  · exact keysNodup_mapSet rid r hg.1
  · intro u e
    refine countP_activeFor_mapSet_inactive u e ?_ (hg.2 u e)
    rw [hr]
    exact activeFor_false_of_status (by intro hh; cases hh) (by intro hh; cases hh)

theorem reachable_goodRequests {s : AppState} (h : Reachable s) : GoodRequests s := by
  induction h with
  | init =>
      constructor
      · exact List.nodup_nil
      · intro u e
        simp [initialState]
  | step_register s username password newId now _ ih =>
      exact goodRequests_of_requests_eq rfl ih
  | step_login s username password _ ih =>
      exact goodRequests_of_requests_eq (login_requests_eq s username password) ih
  | step_logout s _ ih => exact goodRequests_of_requests_eq rfl ih
  | step_clearAll s _ ih =>
      constructor
      · exact List.nodup_nil
      · intro u e
        simp [clearAllData]
  | step_createEvent s s' d newId now ev _ hok ih =>
      rcases createEvent_ok hok with ⟨uid, -, -, hs'⟩
      exact goodRequests_of_requests_eq (by rw [hs']) ih
  | step_updateEvent s s' eventId u ev _ hok ih =>
      rcases updateEvent_ok hok with ⟨uid, event, -, -, -, -, hs'⟩
      exact goodRequests_of_requests_eq (by rw [hs']) ih
  | step_deleteEvent s s' eventId _ hok ih => exact goodRequests_deleteEvent hok ih
  | step_createJoinRequest s s' eventId newId now r _ hok ih =>
      exact goodRequests_createJoinRequest hok ih
  | step_acceptJoinRequest s s' requestId now r _ hok ih =>
      exact goodRequests_acceptJoinRequest hok ih
  | step_rejectJoinRequest s s' requestId now r _ hok ih =>
      exact goodRequests_rejectJoinRequest hok ih
  | step_cancelJoinRequest s s' requestId now r _ hok ih =>
      exact goodRequests_cancelJoinRequest hok ih
  | step_expire s now _ ih => exact goodRequests_expire now ih

theorem expire_requests_eq (s : AppState) (now : Int) :
    (expirePendingRequests s now).2.requests =
      s.requests.map (fun p =>
        if shouldExpire s.events now p.2 then
          (p.1, { p.2 with status := RequestStatus.EXPIRED, updatedAt := now })
        else p) := by
  unfold expirePendingRequests
  by_cases hc : s.requests.countP (fun p => shouldExpire s.events now p.2) > 0
  · rw [if_pos hc]
  · rw [if_neg hc]
    have h0 : s.requests.countP (fun p => shouldExpire s.events now p.2) = 0 :=
      Nat.eq_zero_of_not_pos hc
    have hall := List.countP_eq_zero.1 h0
    have h1 : ∀ p ∈ s.requests,
        (if shouldExpire s.events now p.2 then
          (p.1, { p.2 with status := RequestStatus.EXPIRED, updatedAt := now })
        else p) = id p := by
      intro p hp
      rw [if_neg (hall p hp)]
      rfl
    rw [List.map_congr_left h1, List.map_id]

theorem expire_map_shape (s : AppState) (now : Int) :
    s.requests.map (fun p =>
        if shouldExpire s.events now p.2 then
          (p.1, { p.2 with status := RequestStatus.EXPIRED, updatedAt := now })
        else p) =
      s.requests.map (fun p =>
        (p.1, if shouldExpire s.events now p.2 then
          { p.2 with status := RequestStatus.EXPIRED, updatedAt := now }
        else p.2)) := by
  apply List.map_congr_left
  intro p hp
  by_cases hc : shouldExpire s.events now p.2 = true
  · rw [if_pos hc, if_pos hc]
  · rw [if_neg hc, if_neg hc]

theorem mapGet_map_value {V : Type} (m : JsMap V) (g : V → V) (k : String) :
    mapGet (m.map (fun p => (p.1, g p.2))) k = (mapGet m k).map g := by
  unfold mapGet
  rw [List.find?_map]
  have hcomp :
      ((fun p : String × V => decide (p.1 = k)) ∘
        (fun p : String × V => (p.1, g p.2))) =
      fun p : String × V => decide (p.1 = k) := rfl
  rw [hcomp]
  cases m.find? (fun p : String × V => decide (p.1 = k)) <;> rfl

theorem mapGet_expire (s : AppState) (now : Int) (k : String) :
    mapGet (expirePendingRequests s now).2.requests k =
      (mapGet s.requests k).map (fun r =>
        if shouldExpire s.events now r then
          { r with status := RequestStatus.EXPIRED, updatedAt := now }
        else r) := by
  rw [expire_requests_eq, expire_map_shape]
  exact mapGet_map_value s.requests
    (fun r => if shouldExpire s.events now r then
      { r with status := RequestStatus.EXPIRED, updatedAt := now } else r) k

/-! ### Claim theorems -/

/-- Claim C2: in every state reachable from the empty initial store by the
mutation operations, every (user, event) pair has at most one join request
whose status is PENDING or ACCEPTED; by construction of `Reachable`, each
mutation operation preserves the invariant. -/
theorem C2_at_most_one_active_request (s : AppState) (h : Reachable s)
    (u e : String) : s.requests.countP (activeFor u e) ≤ 1 :=
  (reachable_goodRequests h).2 u e

theorem C2_witness : c2s4.requests.countP (activeFor "A" "e1") ≤ 1 :=
  C2_at_most_one_active_request c2s4
    (Reachable.step_createJoinRequest c2s3 c2s4 "e1" "r1" 1 c2r
      (Reachable.step_register c2s2 "alice" "pw" "A" 0
        (Reachable.step_createEvent c2s1 c2s2 c2d "e1" 0 c2ev
          (Reachable.step_register initialState "bob" "pw" "B" 0 Reachable.init)
          rfl))
      rfl) "A" "e1"

/-- Claim C3: a request whose status is not PENDING (so ACCEPTED, REJECTED,
CANCELLED or EXPIRED) is frozen: accept, reject and cancel can only throw
on it (so, in this embedding, cannot produce a result state), and the
expiry sweep leaves it exactly as it was. -/
theorem C3_terminal_status_frozen (s : AppState) (rid : String) (now : Int)
    (r : JoinRequest) (hget : mapGet s.requests rid = some r)
    (hnp : r.status ≠ RequestStatus.PENDING) :
    (∀ res, acceptJoinRequest s rid now ≠ .ok res) ∧
    (∀ res, rejectJoinRequest s rid now ≠ .ok res) ∧
    (∀ res, cancelJoinRequest s rid now ≠ .ok res) ∧
    mapGet (expirePendingRequests s now).2.requests rid = some r := by
  refine ⟨?_, ?_, ?_, ?_⟩
  · rintro ⟨r0, s0⟩ hok
    rcases acceptJoinRequest_ok hok with ⟨uid, request, event, -, hrq, -, -, hpend, -, -, -⟩
    rw [hget] at hrq
    injection hrq with hreq
    rw [← hreq] at hpend
    exact hnp hpend
  · rintro ⟨r0, s0⟩ hok
    rcases rejectJoinRequest_ok hok with ⟨uid, request, event, -, hrq, -, -, hpend, -, -⟩
    rw [hget] at hrq
    injection hrq with hreq
    rw [← hreq] at hpend
    exact hnp hpend
  · rintro ⟨r0, s0⟩ hok
    rcases cancelJoinRequest_ok hok with ⟨uid, request, event, -, hrq, -, hpend, -, -, -, -⟩
    rw [hget] at hrq
    injection hrq with hreq
    rw [← hreq] at hpend
    exact hnp hpend
  · have hse : shouldExpire s.events now r = false := by
      unfold shouldExpire
      rw [decide_eq_false hnp]
      rfl
    rw [mapGet_expire, hget]
    simp [hse]

theorem C3_witness :
    acceptJoinRequest c3s "r1" 5 ≠ .ok (c3r, c3s) ∧
    rejectJoinRequest c3s "r1" 5 ≠ .ok (c3r, c3s) ∧
    cancelJoinRequest c3s "r1" 5 ≠ .ok (c3r, c3s) ∧
    mapGet (expirePendingRequests c3s 5).2.requests "r1" = some c3r := by
  have H := C3_terminal_status_frozen c3s "r1" 5 c3r (by decide) (by decide)
  exact ⟨H.1 (c3r, c3s), H.2.1 (c3r, c3s), H.2.2.1 (c3r, c3s), H.2.2.2⟩

/-- Claim C4: when some stored user carries the supplied username, login
establishes an authenticated session for that user and returns the user
even though the supplied password does not hash to the stored
passwordHash: the bad-credentials check only logs and does not abort. -/
theorem C4_login_ignores_password_mismatch (s : AppState)
    (username password : String) (user : User)
    (hfind : (mapValues s.users).find? (fun u => decide (u.username = username)) =
      some user)
    (hbad : verifyPassword password user.passwordHash = false) :
    login s username password =
      (some user,
        { s with auth := { currentUserId := some user.id, isAuthenticated := true } }) := by
  unfold login
  rw [hfind]

theorem C4_witness :
    verifyPassword "wrong" c4user.passwordHash = false ∧
    login c4s "alice" "wrong" =
      (some c4user,
        { c4s with
          auth := { currentUserId := some c4user.id, isAuthenticated := true } }) :=
  ⟨by decide,
   C4_login_ignores_password_mismatch c4s "alice" "wrong" c4user (by decide) (by decide)⟩

/-- Claim C9: when no stored user carries the supplied username, login
returns undefined (`none`) and leaves the whole store, including the auth
state, unchanged. -/
theorem C9_login_unknown_username (s : AppState) (username password : String)
    (hfind : (mapValues s.users).find? (fun u => decide (u.username = username)) =
      none) :
    login s username password = (none, s) := by
  unfold login
  rw [hfind]

theorem C9_witness : login initialState "alice" "pw" = (none, initialState) :=
  C9_login_unknown_username initialState "alice" "pw" rfl

/-- Claim C6: accepting a PENDING request, as the authenticated organizer,
when the accepted count already equals `maxPlayers` throws "Event is full";
since a throwing operation performs no write, the requests map is unchanged
and the request is still PENDING. -/
theorem C6_accept_full_fails (s : AppState) (rid : String) (now : Int)
    (uid : String) (request : JoinRequest) (event : SportingEvent)
    (hau : authUser s.auth = some uid)
    (hrq : mapGet s.requests rid = some request)
    (hev : mapGet s.events request.eventId = some event)
    (horg : event.organizerId = uid)
    (hpend : request.status = RequestStatus.PENDING)
    (hfull : acceptedCount s.requests request.eventId = event.maxPlayers) :
    acceptJoinRequest s rid now = .error "Event is full" := by
  unfold acceptJoinRequest
  rw [hau]
  dsimp only
  rw [hrq]
  dsimp only
  rw [hev]
  dsimp only
  rw [if_neg (fun hh => hh horg), if_neg (fun hh => hh hpend), if_pos hfull.ge]

theorem C6_witness : acceptJoinRequest c6s "rb" 9 = .error "Event is full" :=
  C6_accept_full_fails c6s "rb" 9 "O" c6pen c6ev (by decide) (by decide) (by decide)
    (by decide) (by decide) (by decide)

/-- Claim C7: a successful deleteEvent removes the event and every request
whose eventId matches, and retains every other event and every request for
other events unchanged. -/
theorem C7_deleteEvent_cascade (s s' : AppState) (eid : String)
    (h : deleteEvent s eid = .ok s') :
    mapGet s'.events eid = none ∧
    (∀ p ∈ s'.requests, p.2.eventId ≠ eid) ∧
    (∀ k, k ≠ eid → mapGet s'.events k = mapGet s.events k) ∧
    (∀ p ∈ s.requests, p.2.eventId ≠ eid → p ∈ s'.requests) ∧
    (∀ p ∈ s'.requests, p ∈ s.requests) := by
  rcases deleteEvent_ok h with ⟨uid, event, -, -, -, hs'⟩
  subst hs'
  refine ⟨mapGet_mapDelete_self s.events eid, ?_, ?_, ?_, ?_⟩
  · intro p hp
    have hmem := List.of_mem_filter hp
    simpa using hmem
  · intro k hk
    exact mapGet_mapDelete_ne s.events eid k hk
  · intro p hp hne
    exact List.mem_filter.2 ⟨hp, by simpa using hne⟩
  · intro p hp
    exact (List.mem_filter.1 hp).1

theorem C7_witness :
    mapGet c7sd.events "e1" = none ∧
    mapGet c7sd.events "e2" = mapGet c7s.events "e2" ∧
    ("r2", c7r2) ∈ c7sd.requests := by
  have H := C7_deleteEvent_cascade c7s c7sd "e1" rfl
  exact ⟨H.1, H.2.2.1 "e2" (by decide), H.2.2.2.1 ("r2", c7r2) (by decide) (by decide)⟩

/-- Claim C8: after the expiry sweep, every request that was PENDING and
whose event exists with startTime at or before now is EXPIRED with
updatedAt set to the sweep time; every request whose status was not
PENDING is unchanged; and the sweep returns the number of requests it
expired. -/
theorem C8_expire_sweep (s : AppState) (now : Int) :
    (∀ k r, mapGet s.requests k = some r → r.status = RequestStatus.PENDING →
      ∀ event, mapGet s.events r.eventId = some event → event.startTime ≤ now →
        mapGet (expirePendingRequests s now).2.requests k =
          some { r with status := RequestStatus.EXPIRED, updatedAt := now }) ∧
    (∀ k r, mapGet s.requests k = some r → r.status ≠ RequestStatus.PENDING →
      mapGet (expirePendingRequests s now).2.requests k = some r) ∧
    (expirePendingRequests s now).1 =
      ((mapValues s.requests).filter (shouldExpire s.events now)).length := by
  refine ⟨?_, ?_, ?_⟩
  · intro k r hget hpend event hev hst
    have hse : shouldExpire s.events now r = true := by
      unfold shouldExpire
      rw [hpend, hev]
      simp [hst]
    rw [mapGet_expire, hget]
    simp [hse]
  · intro k r hget hnp
    have hse : shouldExpire s.events now r = false := by
      unfold shouldExpire
      rw [decide_eq_false hnp]
      rfl
    rw [mapGet_expire, hget]
    simp [hse]
  · have hlen : ((mapValues s.requests).filter (shouldExpire s.events now)).length =
        s.requests.countP (fun p => shouldExpire s.events now p.2) := by
      rw [← List.countP_eq_length_filter]
      unfold mapValues
      rw [List.countP_map]
      rfl
    rw [hlen]
    unfold expirePendingRequests
    by_cases hc : s.requests.countP (fun p => shouldExpire s.events now p.2) > 0
    · rw [if_pos hc]
    · rw [if_neg hc]

theorem C8_witness :
    mapGet (expirePendingRequests c8s 5).2.requests "r1" =
      some { c8r1 with status := RequestStatus.EXPIRED, updatedAt := 5 } ∧
    mapGet (expirePendingRequests c8s 5).2.requests "r2" = some c8r2 :=
  ⟨(C8_expire_sweep c8s 5).1 "r1" c8r1 (by decide) (by decide) c8e1 (by decide)
      (by decide),
   (C8_expire_sweep c8s 5).2.1 "r2" c8r2 (by decide) (by decide)⟩

/-- Claim C10: a successful updateEvent stores exactly the shallow merge of
the stored event with the supplied updates, for every updates object with
no field restriction (the theorem quantifies over all of `EventUpdates`,
whose fields include `id` and `organizerId`) and with no invariant check
on the merged result. -/
theorem C10_updateEvent_shallow_merge (s : AppState) (eid : String)
    (u : EventUpdates) (uid : String) (event : SportingEvent)
    (hau : authUser s.auth = some uid)
    (hev : mapGet s.events eid = some event)
    (horg : event.organizerId = uid) :
    updateEvent s eid u =
      .ok (mergeEvent event u,
        { s with events := mapSet s.events eid (mergeEvent event u) }) := by
  unfold updateEvent
  rw [hau]
  dsimp only
  rw [hev]
  dsimp only
  rw [if_neg (fun hh => hh horg)]

theorem C10_witness :
    updateEvent c10s "e1" c10u =
      .ok (mergeEvent c10ev c10u,
        { c10s with events := mapSet c10s.events "e1" (mergeEvent c10ev c10u) }) ∧
    (mergeEvent c10ev c10u).organizerId = "X" ∧
    ¬ (mergeEvent c10ev c10u).endTime > (mergeEvent c10ev c10u).startTime :=
  ⟨C10_updateEvent_shallow_merge c10s "e1" c10u "O" c10ev (by decide) (by decide)
      (by decide),
   by decide, by decide⟩

/-- Claim C1 counterexample: with an authenticated session, `createEvent`
accepts event data whose end time (0) precedes its start time (10) and
stores the violating event, so the claimed unconditional invariant is
false on the code: neither `createEvent` nor `updateEvent` checks
`endTime > startTime` (that check lives only in the creation form of the
presentation layer). -/
theorem C1_counterexample :
    createEvent c1s c1d "e1" 50 =
      .ok (c1ev, { c1s with events := [("e1", c1ev)] }) ∧
    ¬ c1ev.endTime > c1ev.startTime :=
  ⟨rfl, by decide⟩

/-- Claim C1 amended: the operations perform no `endTime > startTime`
validation, so the invariant survives a successful create or update only
under the extra hypothesis that the supplied event data (for create),
respectively the merged event (for update), satisfies it. -/
theorem C1_event_time_invariant_amended (s : AppState)
    (hinv : ∀ p ∈ s.events, p.2.endTime > p.2.startTime) :
    (∀ d nid now ev s', createEvent s d nid now = .ok (ev, s') →
      d.endTime > d.startTime → ∀ p ∈ s'.events, p.2.endTime > p.2.startTime) ∧
    (∀ eid u ev s', updateEvent s eid u = .ok (ev, s') →
      ev.endTime > ev.startTime → ∀ p ∈ s'.events, p.2.endTime > p.2.startTime) := by
  constructor
  · intro d nid now ev s' hok hd p hp
    rcases createEvent_ok hok with ⟨uid, -, hevd, hs'⟩
    subst hs'
    rcases mem_mapSet hp with hpe | hmem
    · subst hpe
      subst hevd
      exact hd
    · exact hinv p hmem
  · intro eid u ev s' hok hgt p hp
    rcases updateEvent_ok hok with ⟨uid, event, -, -, -, -, hs'⟩
    subst hs'
    rcases mem_mapSet hp with hpe | hmem
    · subst hpe
      exact hgt
    · exact hinv p hmem

theorem C1_witness : ("e2", c1wev).2.endTime > ("e2", c1wev).2.startTime :=
  (C1_event_time_invariant_amended c1s (by decide)).1 c1wd "e2" 0 c1wev c1ws rfl
    (by decide) ("e2", c1wev) (by decide)

/-- Claim C5 counterexample: in `c5s` user "bob" holds a PENDING request
for event "e1" (the claim's condition (4) therefore fails and the claim
demands an ineligible result), the event has not started and is not full,
yet `canJoinEvent` returns eligible with no reason: the code inspects
only the first request by the user in insertion order — here the older
REJECTED one — rather than searching for any ACCEPTED/PENDING request. -/
theorem C5_counterexample :
    c5pen ∈ mapValues c5s.requests ∧
    c5pen.userId = "bob" ∧ c5pen.eventId = "e1" ∧
    c5pen.status = RequestStatus.PENDING ∧
    canJoinEvent c5s "e1" "bob" 0 = { canJoin := true, reason := none } := by
  refine ⟨?_, ?_, ?_, ?_, ?_⟩ <;> decide

/-- Claim C5 amended: the eligibility conditions are evaluated in the
fixed order (1) event exists, (2) event not started — with reason "Event
has already started" whenever startTime is at or before now, regardless of
every later condition —, (3) user not the organizer, (4) the FIRST request
by this user for this event in insertion order is not ACCEPTED and not
PENDING (only that first request is inspected), (5) accepted count below
maxPlayers; the first failing condition's reason is returned, and if all
pass the result is eligible with no reason. -/
theorem C5_canJoin_ordered_checks (s : AppState) (eid uid : String) (now : Int) :
    (mapGet s.events eid = none →
      canJoinEvent s eid uid now =
        { canJoin := false, reason := some "Event not found" }) ∧
    (∀ event, mapGet s.events eid = some event → event.startTime ≤ now →
      canJoinEvent s eid uid now =
        { canJoin := false, reason := some "Event has already started" }) ∧
    (∀ event, mapGet s.events eid = some event → ¬ event.startTime ≤ now →
      event.organizerId = uid →
      canJoinEvent s eid uid now =
        { canJoin := false, reason := some "You are the organizer" }) ∧
    (∀ event r, mapGet s.events eid = some event → ¬ event.startTime ≤ now →
      event.organizerId ≠ uid →
      (mapValues s.requests).find?
        (fun req => decide (req.eventId = eid ∧ req.userId = uid)) = some r →
      (r.status = RequestStatus.ACCEPTED →
        canJoinEvent s eid uid now =
          { canJoin := false, reason := some "You are already accepted" }) ∧
      (r.status = RequestStatus.PENDING →
        canJoinEvent s eid uid now =
          { canJoin := false, reason := some "You have a pending request" }) ∧
      (r.status ≠ RequestStatus.ACCEPTED → r.status ≠ RequestStatus.PENDING →
        canJoinEvent s eid uid now = canJoinCapacity s.requests event eid)) ∧
    (∀ event, mapGet s.events eid = some event → ¬ event.startTime ≤ now →
      event.organizerId ≠ uid →
      (mapValues s.requests).find?
        (fun req => decide (req.eventId = eid ∧ req.userId = uid)) = none →
      canJoinEvent s eid uid now = canJoinCapacity s.requests event eid) ∧
    (∀ event : SportingEvent,
      (acceptedCount s.requests eid ≥ event.maxPlayers →
        canJoinCapacity s.requests event eid =
          { canJoin := false, reason := some "Event is full" }) ∧
      (¬ acceptedCount s.requests eid ≥ event.maxPlayers →
        canJoinCapacity s.requests event eid =
          { canJoin := true, reason := none })) := by
  refine ⟨?_, ?_, ?_, ?_, ?_, ?_⟩
  · intro hnone
    unfold canJoinEvent
    rw [hnone]
  · intro event hev hst
    unfold canJoinEvent
    rw [hev]
    dsimp only
    rw [if_pos hst]
  · intro event hev hst horg
    unfold canJoinEvent
    rw [hev]
    dsimp only
    rw [if_neg hst, if_pos horg]
  · intro event r hev hst horg hfind
    unfold canJoinEvent
    rw [hev]
    dsimp only
    rw [if_neg hst, if_neg horg, hfind]
    dsimp only
    refine ⟨?_, ?_, ?_⟩
    · intro hacc
      rw [if_pos hacc]
    · intro hpen
      rw [if_neg (by rw [hpen]; intro hh; cases hh), if_pos hpen]
    · intro hacc hpen
      rw [if_neg hacc, if_neg hpen]
  · intro event hev hst horg hfind
    unfold canJoinEvent
    rw [hev]
    dsimp only
    rw [if_neg hst, if_neg horg, hfind]
  · intro event
    constructor
    · intro hfull
      unfold canJoinCapacity
      rw [if_pos hfull]
    · intro hfull
      unfold canJoinCapacity
      rw [if_neg hfull]

theorem C5_witness :
    canJoinEvent c5s "e1" "bob" 200 =
      { canJoin := false, reason := some "Event has already started" } :=
  (C5_canJoin_ordered_checks c5s "e1" "bob" 200).2.1 c5ev (by decide) (by decide)

end Kitest
